import Mathlib

/-!
Verification of the core handlers of the patron-backend server:
the contract event query handler (crates/server/src/handlers/contracts/events.rs)
and the public key deletion handler (crates/server/src/handlers/keys/delete.rs),
shallowly embedded over a relational store modelled as lists of rows.
-/

/-- A 32-byte chain account address, stored as raw bytes. -/
abbrev Address : Type := List Nat

/-- Storage timestamp, mirroring the time crate PrimitiveDateTime used by the
db layer: a calendar date (as a Julian day number) together with a time of day
in whole seconds (the spec guarantees second precision suffices). -/
structure PrimitiveDateTime where
  julianDay : Int
  hour : Nat
  minute : Nat
  second : Nat
deriving DecidableEq, Repr

/-- Unix-epoch seconds of a PrimitiveDateTime interpreted at UTC offset zero,
mirroring date.assume_utc().unix_timestamp(): the Julian day of 1970-01-01 is
2440588, and each day has 86400 seconds. -/
def PrimitiveDateTime.unixTimestamp (d : PrimitiveDateTime) : Int :=
  (d.julianDay - 2440588) * 86400 + (d.hour * 3600 + d.minute * 60 + d.second)

/-- Event row type discriminant, from the event entity of the db crate. -/
inductive EventType where
  | instantiation
  | codeHash
  | terminated
  | contractEmitted
deriving DecidableEq, Repr

/-- An event table row as produced by the external indexer: the columns the
handlers touch (account, body, block_timestamp) plus the remaining stored
attributes (row id, node reference, event type). -/
structure Event where
  id : Nat
  nodeId : Nat
  account : Address
  eventType : EventType
  body : String
  blockTimestamp : PrimitiveDateTime
deriving DecidableEq, Repr

/-- A public_key table row: a chain account address linked to a user. -/
structure PublicKey where
  id : Nat
  userId : Nat
  address : Address
deriving DecidableEq, Repr

/-- Opaque storage-layer failure; the handlers never inspect its contents,
they only propagate it. -/
inductive DbErr where
  | dbErr
deriving DecidableEq, Repr

/-- Error type of the contract event list handler: the only variant wraps a
database error. -/
inductive ContractEventsError where
  | databaseError (e : DbErr)
deriving DecidableEq, Repr

/-- Error type of the public key deletion handler: the only variant wraps a
database error. -/
inductive PublicKeyDeletionError where
  | databaseError (e : DbErr)
deriving DecidableEq, Repr

/-- A single contract event as serialized in the response: exactly the two
fields body and timestamp. -/
structure ContractEvent where
  body : String
  timestamp : Int
deriving DecidableEq, Repr

/-- Descending block-timestamp order on the projected (body, block_timestamp)
tuples: earlier response entries carry later timestamps. -/
def tsDesc (p q : String × PrimitiveDateTime) : Prop :=
  q.2.unixTimestamp ≤ p.2.unixTimestamp

instance : DecidableRel tsDesc := fun p q =>
  inferInstanceAs (Decidable (q.2.unixTimestamp ≤ p.2.unixTimestamp))

instance : IsTotal (String × PrimitiveDateTime) tsDesc :=
  ⟨fun p q => (le_total q.2.unixTimestamp p.2.unixTimestamp).imp id id⟩

instance : IsTrans (String × PrimitiveDateTime) tsDesc :=
  ⟨fun _ _ _ h h₂ => le_trans h₂ h⟩

/-- The query built by the events handler: select only the body and
block_timestamp columns of the event rows whose account column equals the
requested account, ordered by block_timestamp descending, limited to 25 rows,
each row mapped to a ContractEvent whose timestamp is the Unix timestamp of
the stored date assumed to be UTC. -/
def eventsQuery (db : List Event) (a : Address) : List ContractEvent :=
  ((List.insertionSort tsDesc
        ((db.filter (fun e => e.account = a)).map (fun e => (e.body, e.blockTimestamp)))).take
      25).map
    (fun p => { body := p.1, timestamp := p.2.unixTimestamp })

/-- The events handler: runs the streamed query against the store; a storage
failure is propagated as a database error, otherwise the collected rows are
returned as a JSON list. -/
def eventsHandler (storageFails : Bool) (db : List Event) (a : Address) :
    Except ContractEventsError (List ContractEvent) :=
  if storageFails then
    Except.error (ContractEventsError.databaseError DbErr.dbErr)
  else
    Except.ok (eventsQuery db a)

/-- The delete_many statement issued inside the transaction of the delete
handler: remove every public_key row whose user_id equals the authenticated
user and whose address equals the requested account bytes; a storage failure
yields a database error instead. -/
def execDeleteMany (storageFails : Bool) (uid : Nat) (a : Address)
    (db : List PublicKey) : Except DbErr (List PublicKey) :=
  if storageFails then
    Except.error DbErr.dbErr
  else
    Except.ok (db.filter (fun k => ¬(k.userId = uid ∧ k.address = a)))

/-- The delete handler: the delete_many statement runs inside a single
transaction; on success the transaction commits and the handler returns the
empty 200 body, on failure the transaction rolls back (the store is
unchanged) and the error is surfaced through into_raw_result as the handler
error. The result pairs the post-request store with the handler response. -/
def deleteHandler (storageFails : Bool) (uid : Nat) (a : Address)
    (db : List PublicKey) : List PublicKey × Except PublicKeyDeletionError Unit :=
  match execDeleteMany storageFails uid a db with
  | Except.ok db' => (db', Except.ok ())
  | Except.error e => (db, Except.error (PublicKeyDeletionError.databaseError e))

/-- Modelled from the spec: the list operation of the Public Key Registry
(its handler source is not part of the embedded sources) returns all
PublicKey rows owned by the identity, in stable order by row id, each as the
pair of its row id and address. -/
def listKeys (uid : Nat) (db : List PublicKey) : List (Nat × Address) :=
  (List.insertionSort (fun k₁ k₂ : PublicKey => k₁.id ≤ k₂.id)
      (db.filter (fun k => k.userId = uid))).map
    (fun k => (k.id, k.address))

deriving instance DecidableEq for Except

/-- The epoch date at midnight, for concrete test rows. -/
def epochDate : PrimitiveDateTime := ⟨2440588, 0, 0, 0⟩

example : epochDate.unixTimestamp = 0 := by decide

example :
    eventsQuery
      [⟨1, 1, [1], EventType.instantiation, "\"Instantiation\"", epochDate⟩] [1] =
      [⟨"\"Instantiation\"", 0⟩] := by decide

example : eventsQuery [] [1] = [] := by decide

example :
    deleteHandler false 1 [7] [⟨1, 1, [7]⟩, ⟨2, 2, [7]⟩] =
      ([⟨2, 2, [7]⟩], Except.ok ()) := by decide

/-- On a healthy store the transaction commits: the resulting store is the
filtered store and the response is the empty success body. -/
theorem deleteHandler_ok (uid : Nat) (a : Address) (db : List PublicKey) :
    deleteHandler false uid a db =
      (db.filter (fun k => ¬(k.userId = uid ∧ k.address = a)), Except.ok ()) := rfl

/-- C2: for distinct users U1 and U2 and any address A, running the delete
handler as U2 with address A leaves the set of PublicKey rows owned by U1
unchanged, whether or not the storage operation fails: the delete filter is
conjoined with the resolved identity, so rows of another user never match. -/
theorem delete_cross_user_isolated (u₁ u₂ : Nat) (a : Address)
    (db : List PublicKey) (fails : Bool) (h : u₁ ≠ u₂) :
    (deleteHandler fails u₂ a db).1.filter (fun k => k.userId = u₁) =
      db.filter (fun k => k.userId = u₁) := by
  cases fails
  · rw [deleteHandler_ok]
    show ((db.filter _).filter _) = _
    rw [List.filter_filter]
    refine List.filter_congr (fun k _ => ?_)
    by_cases hk : k.userId = u₁
    · simp [hk]
      exact Or.inl h
    · simp [hk]
  · rfl

theorem delete_cross_user_isolated_witness :
    (1 : Nat) ≠ 2 ∧
      (deleteHandler false 2 [7] [⟨1, 1, [7]⟩]).1.filter
          (fun k => k.userId = 1) =
        List.filter (fun k => k.userId = 1) [⟨1, 1, [7]⟩] :=
  ⟨by decide, delete_cross_user_isolated 1 2 [7] [⟨1, 1, [7]⟩] false (by decide)⟩

/-- C3: the delete handler's response is identical in a run against a store
holding a matching PublicKey row and a run against a store holding none: in
both cases it is the empty success body, disclosing nothing about whether
the address was linked. -/
theorem delete_response_uniform (u : Nat) (a : Address)
    (db₁ db₂ : List PublicKey)
    (_h₁ : ∃ k ∈ db₁, k.userId = u ∧ k.address = a)
    (_h₂ : ∀ k ∈ db₂, ¬(k.userId = u ∧ k.address = a)) :
    (deleteHandler false u a db₁).2 = (deleteHandler false u a db₂).2 ∧
      (deleteHandler false u a db₁).2 = Except.ok () :=
  ⟨rfl, rfl⟩

theorem delete_response_uniform_witness :
    (deleteHandler false 1 [7] [⟨1, 1, [7]⟩]).2 =
        (deleteHandler false 1 [7] []).2 ∧
      (deleteHandler false 1 [7] [⟨1, 1, [7]⟩]).2 = Except.ok () :=
  delete_response_uniform 1 [7] [⟨1, 1, [7]⟩] []
    ⟨⟨1, 1, [7]⟩, by decide⟩ (by decide)

/-- C4: if the storage operation inside the delete transaction fails, the
transaction rolls back leaving the PublicKey rows exactly as they were, and
the handler surfaces the opaque database error instead of success. -/
theorem delete_storage_failure_atomic (u : Nat) (a : Address)
    (db : List PublicKey) :
    (deleteHandler true u a db).1 = db ∧
      (deleteHandler true u a db).2 =
        Except.error (PublicKeyDeletionError.databaseError DbErr.dbErr) :=
  ⟨rfl, rfl⟩

/-- C5: the delete handler is idempotent: both the first and a repeated call
with the same identity and address return the empty success body, and the
second call leaves the store exactly as the first call left it. -/
theorem delete_idempotent (u : Nat) (a : Address) (db : List PublicKey) :
    (deleteHandler false u a (deleteHandler false u a db).1).1 =
        (deleteHandler false u a db).1 ∧
      (deleteHandler false u a db).2 = Except.ok () ∧
      (deleteHandler false u a (deleteHandler false u a db).1).2 =
        Except.ok () := by
  refine ⟨?_, rfl, rfl⟩
  rw [deleteHandler_ok, deleteHandler_ok]
  show (db.filter _).filter _ = _
  rw [List.filter_filter]
  exact List.filter_congr (fun k _ => Bool.and_self _)

/-- C8: if the identity has no PublicKey row for the given address, the
delete handler returns the empty success body and the identity's key list,
as observed by the list operation, is unchanged. -/
theorem delete_unlinked_noop (u : Nat) (a : Address) (db : List PublicKey)
    (h : ∀ k ∈ db, ¬(k.userId = u ∧ k.address = a)) :
    (deleteHandler false u a db).2 = Except.ok () ∧
      listKeys u (deleteHandler false u a db).1 = listKeys u db := by
  refine ⟨rfl, ?_⟩
  have hdb : (deleteHandler false u a db).1 = db := by
    rw [deleteHandler_ok]
    show db.filter _ = db
    rw [List.filter_eq_self]
    intro k hk
    exact decide_eq_true (h k hk)
  rw [hdb]

theorem delete_unlinked_noop_witness :
    (deleteHandler false 2 [9] [⟨1, 1, [7]⟩]).2 = Except.ok () ∧
      listKeys 2 (deleteHandler false 2 [9] [⟨1, 1, [7]⟩]).1 =
        listKeys 2 [⟨1, 1, [7]⟩] :=
  delete_unlinked_noop 2 [9] [⟨1, 1, [7]⟩] (by decide)

/-- C9: after a successful delete, no PublicKey row carrying the identity
and the requested address survives in the store: the delete-many filter
removes every matching row, duplicates included. -/
theorem delete_removes_all_matching (u : Nat) (a : Address)
    (db : List PublicKey) :
    ∀ k ∈ (deleteHandler false u a db).1,
      ¬(k.userId = u ∧ k.address = a) := by
  intro k hk
  rw [deleteHandler_ok] at hk
  have hk' : k ∈ db.filter (fun k => ¬(k.userId = u ∧ k.address = a)) := hk
  rw [List.mem_filter] at hk'
  exact of_decide_eq_true hk'.2

theorem delete_removes_all_matching_witness :
    ¬((⟨1, 3, [0]⟩ : PublicKey).userId = 2 ∧
        (⟨1, 3, [0]⟩ : PublicKey).address = [9]) :=
  delete_removes_all_matching 2 [9] [⟨1, 3, [0]⟩] ⟨1, 3, [0]⟩ (by decide)

/-- The projection selected by the events query: only the body and
block_timestamp columns of a row. -/
def eventColumns (e : Event) : String × PrimitiveDateTime :=
  (e.body, e.blockTimestamp)

/-- The serialization of a projected row into a response element. -/
def toContractEvent (p : String × PrimitiveDateTime) : ContractEvent :=
  { body := p.1, timestamp := p.2.unixTimestamp }

/-- The events query, restated through the named projection helpers. -/
theorem eventsQuery_eq (db : List Event) (a : Address) :
    eventsQuery db a =
      ((List.insertionSort tsDesc
            ((db.filter (fun e => e.account = a)).map eventColumns)).take 25).map
        toContractEvent := rfl

/-- Every element of the events response originates from a stored event row
matching the requested account, carrying that row's body and the Unix
timestamp of that row's block timestamp. -/
theorem eventsQuery_mem {db : List Event} {a : Address} {c : ContractEvent}
    (hc : c ∈ eventsQuery db a) :
    ∃ e ∈ db, e.account = a ∧ c.body = e.body ∧
      c.timestamp = e.blockTimestamp.unixTimestamp := by
  rw [eventsQuery_eq] at hc
  obtain ⟨p, hp, rfl⟩ := List.mem_map.mp hc
  have hp₂ : p ∈ List.insertionSort tsDesc
      ((db.filter (fun e => e.account = a)).map eventColumns) :=
    List.mem_of_mem_take hp
  have hp₃ : p ∈ (db.filter (fun e => e.account = a)).map eventColumns :=
    (List.perm_insertionSort tsDesc _).mem_iff.mp hp₂
  obtain ⟨e, he, rfl⟩ := List.mem_map.mp hp₃
  rw [List.mem_filter] at he
  exact ⟨e, he.1, of_decide_eq_true he.2, rfl, rfl⟩

/-- Every stored event row matching the requested account is either present
in the events response, or is no more recent than every element of the
response (it fell past the 25-row limit). -/
theorem eventsQuery_recent {db : List Event} {a : Address} {e : Event}
    (he : e ∈ db) (ha : e.account = a) :
    toContractEvent (eventColumns e) ∈ eventsQuery db a ∨
      ∀ c ∈ eventsQuery db a, e.blockTimestamp.unixTimestamp ≤ c.timestamp := by
  rw [eventsQuery_eq]
  have hmem : eventColumns e ∈
      (db.filter (fun e => e.account = a)).map eventColumns :=
    List.mem_map_of_mem eventColumns
      (List.mem_filter.mpr ⟨he, decide_eq_true ha⟩)
  have hsort : eventColumns e ∈ List.insertionSort tsDesc
      ((db.filter (fun e => e.account = a)).map eventColumns) :=
    (List.perm_insertionSort tsDesc _).mem_iff.mpr hmem
  set s := List.insertionSort tsDesc
    ((db.filter (fun e => e.account = a)).map eventColumns) with hs
  have hpair : List.Pairwise tsDesc (s.take 25 ++ s.drop 25) := by
    rw [List.take_append_drop]
    exact List.sorted_insertionSort tsDesc _
  have hsplit : eventColumns e ∈ s.take 25 ++ s.drop 25 := by
    rw [List.take_append_drop]
    exact hsort
  rcases List.mem_append.mp hsplit with h | h
  · exact Or.inl (List.mem_map_of_mem toContractEvent h)
  · refine Or.inr (fun c hc => ?_)
    obtain ⟨q, hq, rfl⟩ := List.mem_map.mp hc
    exact (List.pairwise_append.mp hpair).2.2 q hq (eventColumns e) h

/-- C6: for an account with no stored events, the events handler returns the
successful empty list: no error and no absent value, absence of events is a
normal empty result. -/
theorem events_no_match_ok_empty (db : List Event) (a : Address)
    (h : ∀ e ∈ db, e.account ≠ a) :
    eventsHandler false db a = Except.ok [] := by
  have hf : db.filter (fun e => e.account = a) = [] := by
    rw [List.filter_eq_nil_iff]
    intro e he
    simpa using h e he
  show Except.ok (eventsQuery db a) = Except.ok []
  rw [eventsQuery_eq, hf]
  rfl

theorem events_no_match_ok_empty_witness :
    eventsHandler false
        [⟨1, 1, [2], EventType.instantiation, "x", epochDate⟩] [1] =
      Except.ok [] :=
  events_no_match_ok_empty
    [⟨1, 1, [2], EventType.instantiation, "x", epochDate⟩] [1] (by decide)

/-- C7: every element of the events response carries the stored body
verbatim and the Unix-epoch seconds of the stored block timestamp assumed to
be UTC, taken from an event row of the requested account. -/
theorem events_body_timestamp_verbatim (db : List Event) (a : Address)
    (c : ContractEvent) (hc : c ∈ eventsQuery db a) :
    ∃ e ∈ db, e.account = a ∧ c.body = e.body ∧
      c.timestamp = e.blockTimestamp.unixTimestamp :=
  eventsQuery_mem hc

theorem events_body_timestamp_verbatim_witness :
    ∃ e ∈ [(⟨1, 1, [1], EventType.instantiation, "payload", epochDate⟩ : Event)],
      e.account = [1] ∧ (⟨"payload", 0⟩ : ContractEvent).body = e.body ∧
        (⟨"payload", 0⟩ : ContractEvent).timestamp =
          e.blockTimestamp.unixTimestamp :=
  events_body_timestamp_verbatim
    [⟨1, 1, [1], EventType.instantiation, "payload", epochDate⟩] [1]
    ⟨"payload", 0⟩ (by decide)

/-- C10: a response element consists of exactly the two fields body and
timestamp, and the response is unchanged by any rewriting of the stored rows
that preserves the account, body and block_timestamp columns: no other
stored attribute (row id, node reference, event type) influences it. -/
theorem events_only_body_timestamp (db : List Event) (a : Address)
    (g : Event → Event)
    (hacc : ∀ e, (g e).account = e.account)
    (hbody : ∀ e, (g e).body = e.body)
    (hts : ∀ e, (g e).blockTimestamp = e.blockTimestamp) :
    (∀ c : ContractEvent, c = ⟨c.body, c.timestamp⟩) ∧
      eventsQuery (db.map g) a = eventsQuery db a := by
  refine ⟨fun c => rfl, ?_⟩
  rw [eventsQuery_eq, eventsQuery_eq]
  have hproj : ((db.map g).filter (fun e => e.account = a)).map eventColumns =
      (db.filter (fun e => e.account = a)).map eventColumns := by
    rw [List.filter_map, List.map_map]
    have h₁ : db.filter ((fun e => decide (e.account = a)) ∘ g) =
        db.filter (fun e => e.account = a) :=
      List.filter_congr (fun e _ => by simp [Function.comp, hacc e])
    rw [h₁]
    exact List.map_congr_left
      (fun e _ => by simp [Function.comp, eventColumns, hbody e, hts e])
  rw [hproj]

/-- A rewriting of stored event rows that changes every attribute the
response is not allowed to depend on, preserving account, body and
block_timestamp. -/
def scrubEvent (e : Event) : Event :=
  ⟨99, 7, e.account, EventType.terminated, e.body, e.blockTimestamp⟩

theorem events_only_body_timestamp_witness :
    (∀ c : ContractEvent, c = ⟨c.body, c.timestamp⟩) ∧
      eventsQuery
          (List.map scrubEvent
            [⟨1, 1, [1], EventType.instantiation, "x", epochDate⟩]) [1] =
        eventsQuery [⟨1, 1, [1], EventType.instantiation, "x", epochDate⟩] [1] :=
  events_only_body_timestamp
    [⟨1, 1, [1], EventType.instantiation, "x", epochDate⟩] [1]
    scrubEvent (fun _ => rfl) (fun _ => rfl) (fun _ => rfl)

/-- C1: the events query returns only rows of the requested account carrying
their stored body and timestamp, in descending block-timestamp order, with
exactly min(matching row count, 25) elements, and the returned rows are the
most recent: any matching row left out is no newer than every returned one. -/
theorem events_filtered_ordered_bounded (db : List Event) (a : Address) :
    (eventsQuery db a).length =
        min ((db.filter (fun e => e.account = a)).length) 25 ∧
      List.Pairwise (fun c₁ c₂ : ContractEvent => c₂.timestamp ≤ c₁.timestamp)
        (eventsQuery db a) ∧
      (∀ c ∈ eventsQuery db a, ∃ e ∈ db, e.account = a ∧ c.body = e.body ∧
        c.timestamp = e.blockTimestamp.unixTimestamp) ∧
      (∀ e ∈ db, e.account = a →
        toContractEvent (eventColumns e) ∈ eventsQuery db a ∨
          ∀ c ∈ eventsQuery db a,
            e.blockTimestamp.unixTimestamp ≤ c.timestamp) := by
  refine ⟨?_, ?_, fun c hc => eventsQuery_mem hc,
    fun e he ha => eventsQuery_recent he ha⟩
  · rw [eventsQuery_eq, List.length_map, List.length_take,
      (List.perm_insertionSort tsDesc _).length_eq, List.length_map]
    omega
  · rw [eventsQuery_eq]
    refine List.Pairwise.map toContractEvent (fun p q hpq => hpq) ?_
    exact List.Pairwise.sublist (List.take_sublist 25 _)
      (List.sorted_insertionSort tsDesc _)

/-- The date lying n whole days after the Unix epoch. -/
def dayDate (n : Nat) : PrimitiveDateTime := ⟨2440588 + n, 0, 0, 0⟩

/-- Thirty stored events for the single account [1], one per day, inserted
in ascending timestamp order. -/
def thirtyEvents : List Event :=
  (List.range 30).map
    (fun i => ⟨i, 1, [1], EventType.contractEmitted, "b", dayDate i⟩)

theorem events_filtered_ordered_bounded_witness :
    eventsQuery thirtyEvents [1] =
        (List.range 25).map
          (fun i => ⟨"b", (((29 - i : Nat) : Int) * 86400 : Int)⟩) ∧
      (eventsQuery thirtyEvents [1]).length =
        min ((thirtyEvents.filter (fun e => e.account = [1])).length) 25 :=
  ⟨by decide, (events_filtered_ordered_bounded thirtyEvents [1]).1⟩
